import Mathlib

/-!
# Verification of the big-brain decision engine core

A shallow embedding of the utility-AI decision engine (score tree, pickers,
thinker reconciliation loop, and the Join/Race/Step composite combinators),
together with theorems settling the specification's testable properties.

The embedding follows the source tree:

* `ActionState`, `ActionState.cancel_if_executing` — `src/action.rs`
  (the four-state lifecycle used by `src/sequence.rs`);
* `exec_join`, `exec_race`, `exec_step` — `src/sequence.rs`;
* `SequenceSpawner` (Step mode) — `src/sequence.rs`;
* `Highest.pick` — `src/pickers.rs`;
* the measures and composite scorer evaluations — `src/measures.rs`,
  `src/scorer.rs`;
* the thinker reconciliation loop — `src/thinker.rs` (a revision using a
  five-state lifecycle including `Requested`).

Machine floats (`f32`) are embedded as rationals where only ordered-field
operations appear, and as real numbers where `powf` (square root) is used.
Entity handles are natural numbers; the entity/state store is an explicit
partial map `Nat → Option _`; fallible lookups (`unwrap`/`expect`) are
modelled in the `Option` monad, `none` standing for a panic.
-/

/-! ## The four-state action lifecycle (`src/action.rs`) -/

/-- `ActionState` from `src/action.rs`: `Executing` (initial), `Cancelled`
(a cooperative stop request), and the two terminal states `Success` and
`Failure`. -/
inductive ActionState : Type where
  | Executing : ActionState
  | Cancelled : ActionState
  | Success : ActionState
  | Failure : ActionState
deriving DecidableEq, Repr

namespace ActionState

/-- `ActionState::is_success`. -/
def is_success : ActionState → Bool
  | .Success => true
  | _ => false

/-- `ActionState::is_failure`. -/
def is_failure : ActionState → Bool
  | .Failure => true
  | _ => false

/-- `ActionState::is_done` — true on `Success` and `Failure`. -/
def is_done : ActionState → Bool
  | .Success => true
  | .Failure => true
  | _ => false

/-- `ActionState::cancel_if_executing` (`src/action.rs` lines 127-133):
set the state to `Cancelled` exactly when it is `Executing`. -/
def cancel_if_executing : ActionState → ActionState
  | .Executing => .Cancelled
  | s => s

end ActionState

/-! ## Join and Race (`src/sequence.rs`, `exec_join` / `exec_race`)

The two concurrent combinators operate on the parent's own state and the
ordered list of child states.  The `Executing` branch of each is a single
indexed scan (here `joinLoop` / `raceLoop`, a structural recursion equal to
the source's `for (index, child)` loop) followed by the index-based
`take(index)` cancellation pass (`cancelBefore`). -/

/-- The body of `for &child in actions.iter().take(index)` in
`exec_join`/`exec_race`: `cancel_if_executing` the first `n` children. -/
def cancelBefore : Nat → List ActionState → List ActionState
  | 0, l => l
  | _ + 1, [] => []
  | n + 1, c :: rest => c.cancel_if_executing :: cancelBefore n rest

/-- The `Executing`-branch scan of `exec_join` (`src/sequence.rs` lines
151-162).  Walks the children left to right carrying the current index and
`failed_index`; a `Failure` child records its index, and a child found
`Executing` while `failed_index.is_some()` is cancelled.  Returns the
updated child list, the `all_success` flag and the final `failed_index`. -/
def joinLoop : Nat → Option Nat → List ActionState →
    List ActionState × Bool × Option Nat
  | _, fidx, [] => ([], true, fidx)
  | i, fidx, c :: rest =>
    let step : ActionState × Option Nat :=
      match c with
      | .Failure => (.Failure, some i)
      | .Executing => (if fidx.isSome then .Cancelled else .Executing, fidx)
      | c => (c, fidx)
    let out := joinLoop (i + 1) step.2 rest
    (step.1 :: out.1, c.is_success && out.2.1, out.2.2)

/-- `exec_join` (`src/sequence.rs` lines 144-196) on the parent state and the
child states; returns the updated parent state and child states. -/
def exec_join (this_state : ActionState) (children : List ActionState) :
    ActionState × List ActionState :=
  match this_state with
  | .Executing =>
    let scan := joinLoop 0 none children
    let cs := scan.1
    let all_success := scan.2.1
    let failed_index := scan.2.2
    if all_success then (.Success, cs)
    else
      match failed_index with
      | some index => (.Failure, cancelBefore index cs)
      | none => (.Executing, cs)
  | .Cancelled =>
    let any_err := children.any (fun c => c.is_failure)
    let all_done := children.all (fun c => c.is_done)
    let cs := children.map (fun c => if c = .Executing then .Cancelled else c)
    if all_done && any_err then (.Failure, cs)
    else if all_done && !any_err then (.Success, cs)
    else (.Cancelled, cs)
  | s => (s, children)

/-- The `Executing`-branch scan of `exec_race` (`src/sequence.rs` lines
205-216), mirror image of `joinLoop`: a `Success` child records its index,
and a child found `Executing` while `succeed_index.is_some()` is
cancelled. -/
def raceLoop : Nat → Option Nat → List ActionState →
    List ActionState × Bool × Option Nat
  | _, sidx, [] => ([], true, sidx)
  | i, sidx, c :: rest =>
    let step : ActionState × Option Nat :=
      match c with
      | .Success => (.Success, some i)
      | .Executing => (if sidx.isSome then .Cancelled else .Executing, sidx)
      | c => (c, sidx)
    let out := raceLoop (i + 1) step.2 rest
    (step.1 :: out.1, c.is_failure && out.2.1, out.2.2)

/-- `exec_race` (`src/sequence.rs` lines 198-250) on the parent state and the
child states. -/
def exec_race (this_state : ActionState) (children : List ActionState) :
    ActionState × List ActionState :=
  match this_state with
  | .Executing =>
    let scan := raceLoop 0 none children
    let cs := scan.1
    let all_failure := scan.2.1
    let succeed_index := scan.2.2
    if all_failure then (.Failure, cs)
    else
      match succeed_index with
      | some index => (.Success, cancelBefore index cs)
      | none => (.Executing, cs)
  | .Cancelled =>
    let any_ok := children.any (fun c => c.is_success)
    let all_done := children.all (fun c => c.is_done)
    let cs := children.map (fun c => if c = .Executing then .Cancelled else c)
    if all_done && any_ok then (.Success, cs)
    else if all_done && !any_ok then (.Failure, cs)
    else (.Cancelled, cs)
  | s => (s, children)

/-! ## Step (`src/sequence.rs`, `SequenceSpawner::spawn` and `exec_step`)

The Step combinator keeps entity identity: the parent owns a `Children`
list of child entity handles whose states live in a per-entity store, the
`Sequence` component tracks `active_step` out of `steps.len()` step
templates, and a fresh handle counter models entity allocation.  Step
templates carry no data relevant to the lifecycle (a spawned child always
starts `Executing`, per `ActionCommands::spawn` in `src/action.rs`). -/

/-- The entity-level state of one Step composite: its own `ActionState`, the
`Sequence` component fields (`active_step`, `steps.len()`), its `Children`
handle list, the per-entity child state store, and the allocator. -/
structure StepEnv : Type where
  this_state : ActionState
  active_step : Nat
  numSteps : Nat
  children : List Nat
  states : Nat → Option ActionState
  nextEntity : Nat

/-- `DespawnRecursive` of one child of a Step: the handle leaves the
`Children` list and its state is removed from the store. -/
def StepEnv.despawn (env : StepEnv) (a : Nat) : StepEnv :=
  { env with
    children := env.children.filter (fun e => e != a)
    states := fun e => if e = a then none else env.states e }

/-- Write a child's `ActionState` in the store. -/
def StepEnv.setState (env : StepEnv) (a : Nat) (s : ActionState) : StepEnv :=
  { env with states := fun e => if e = a then some s else env.states e }

/-- `sequence.steps[idx].spawn(...)` for a Step: allocate a fresh entity
whose state is `ActionState::Executing` (`ActionCommands::spawn`,
`src/action.rs` line 34); returns the new handle. -/
def StepEnv.spawnChild (env : StepEnv) : Nat × StepEnv :=
  (env.nextEntity,
    { env with
      states := fun e =>
        if e = env.nextEntity then some .Executing else env.states e
      nextEntity := env.nextEntity + 1 })

/-- `exec_step` (`src/sequence.rs` lines 252-295).  `none` models a panic of
the `states.get_mut(active).unwrap()` lookup.  The early `return` when the
composite has no child (`actions.first()` is `None`) leaves everything
untouched. -/
def exec_step (env : StepEnv) : Option StepEnv :=
  match env.children.head? with
  | none => some env
  | some active =>
    match env.states active with
    | none => none
    | some active_state =>
      match env.this_state, active_state with
      | .Executing, .Executing => some env
      | .Executing, .Cancelled => some env
      | .Executing, .Success =>
        let env1 := env.despawn active
        if env.active_step == env.numSteps - 1 then
          some { env1 with this_state := .Success }
        else
          let env2 := { env1 with active_step := env1.active_step + 1 }
          let spawned := env2.spawnChild
          some { spawned.2 with children := spawned.2.children ++ [spawned.1] }
      | .Executing, .Failure =>
        some { env.despawn active with this_state := .Failure }
      | .Cancelled, .Executing => some (env.setState active .Cancelled)
      | .Cancelled, .Success => some { env with this_state := .Success }
      | .Cancelled, .Failure => some { env with this_state := .Failure }
      | _, _ => some env

/-- `SequenceSpawner::spawn` (`src/sequence.rs` lines 35-58) in `Step` mode
for a list of `numActions` step templates: the composite entity starts
`Executing` with `active_step = 0`, and only the first step — when there is
one — is instantiated as a child.  Handle `0` is the composite itself;
fresh children start at `1`. -/
def SequenceSpawner.spawnStep (numActions : Nat) : StepEnv :=
  if numActions = 0 then
    { this_state := .Executing, active_step := 0, numSteps := 0
      children := [], states := fun _ => none, nextEntity := 1 }
  else
    { this_state := .Executing, active_step := 0, numSteps := numActions
      children := [1], states := fun e => if e = 1 then some .Executing else none
      nextEntity := 2 }

/-- Iterate `exec_step` over successive ticks of the sequence system,
propagating a panic. -/
def exec_step_iter : Nat → StepEnv → Option StepEnv
  | 0, env => some env
  | n + 1, env =>
    match exec_step env with
    | none => none
    | some env1 => exec_step_iter n env1

/-! ## The Highest picker (`src/pickers.rs`)

`Highest::pick` folds over the choices with a running `max_score` starting
at `0.0`, replacing the accumulator only on a strict increase that is also
strictly positive.  A `Choice` is embedded as its current score (the value
`Choice::calculate` reads for it) paired with the identity of its action
template. -/

/-- A `Choice` (`src/pickers.rs` lines 11-24), reduced to the score its
scorer entity currently carries and an identifier for its action
template. -/
structure Choice : Type where
  score : ℚ
  action : Nat
deriving DecidableEq, Repr

/-- `Highest::pick` (`src/pickers.rs` lines 90-103): fold with accumulator
`acc` and running `max_score` (initially `0.0`); a choice whose score is
`≤ max_score` or `≤ 0` is skipped, otherwise it becomes the new winner. -/
def Highest.pick (choices : List Choice) : Option Nat :=
  (choices.foldl
    (fun (st : Option Nat × ℚ) choice =>
      if choice.score ≤ st.2 ∨ choice.score ≤ 0 then st
      else (some choice.action, choice.score))
    (none, 0)).1

/-- Recursive restatement of the fold inside `Highest.pick`, used for the
correspondence proof. -/
def pickAux : List Choice → Option Nat → ℚ → Option Nat
  | [], acc, _ => acc
  | c :: rest, acc, m =>
    if c.score ≤ m ∨ c.score ≤ 0 then pickAux rest acc m
    else pickAux rest (some c.action) c.score

/-- The greatest score in `l`, at least `m`. -/
def bestScore (m : ℚ) (l : List Choice) : ℚ :=
  l.foldl (fun b c => max b c.score) m

/-- Modelled from the spec: `Highest(threshold)` "returns the Choice with
the strictly greatest score among those exceeding threshold (and > 0); ties
broken by first-seen", for the built-in threshold `0` of `Highest` — if no
score exceeds `0` there is no winner, otherwise the winner is the first
choice attaining the greatest score. -/
def highestSpec (l : List Choice) : Option Nat :=
  if bestScore 0 l ≤ 0 then none
  else (l.find? (fun c => decide (bestScore 0 l ≤ c.score))).map Choice.action

lemma bestScore_cons (m : ℚ) (c : Choice) (l : List Choice) :
    bestScore m (c :: l) = bestScore (max m c.score) l := rfl

lemma le_bestScore (m : ℚ) (l : List Choice) : m ≤ bestScore m l := by
  induction l generalizing m with
  | nil => exact le_refl m
  | cons c rest ih =>
    calc m ≤ max m c.score := le_max_left _ _
    _ ≤ bestScore (max m c.score) rest := ih _
    _ = bestScore m (c :: rest) := (bestScore_cons m c rest).symm

lemma mem_le_bestScore {c : Choice} {l : List Choice} (m : ℚ)
    (hc : c ∈ l) : c.score ≤ bestScore m l := by
  induction l generalizing m with
  | nil => cases hc
  | cons d rest ih =>
    rw [bestScore_cons]
    rcases List.mem_cons.mp hc with h | h
    · subst h
      exact le_trans (le_max_right m c.score) (le_bestScore _ rest)
    · exact ih _ h

lemma bestScore_of_all_le {m : ℚ} {l : List Choice}
    (h : ∀ c ∈ l, c.score ≤ m) : bestScore m l = m := by
  induction l with
  | nil => rfl
  | cons c rest ih =>
    rw [bestScore_cons, max_eq_left (h c (List.mem_cons_self c rest))]
    exact ih (fun d hd => h d (List.mem_cons_of_mem c hd))

lemma bestScore_attained {m : ℚ} {l : List Choice} :
    bestScore m l = m ∨ ∃ c ∈ l, bestScore m l = c.score := by
  induction l generalizing m with
  | nil => exact Or.inl rfl
  | cons c rest ih =>
    rw [bestScore_cons]
    rcases ih (m := max m c.score) with h | ⟨d, hd, hds⟩
    · rcases max_cases m c.score with ⟨hmax, _⟩ | ⟨hmax, _⟩
      · exact Or.inl (h.trans hmax)
      · exact Or.inr ⟨c, List.mem_cons_self c rest, h.trans hmax⟩
    · exact Or.inr ⟨d, List.mem_cons_of_mem c hd, hds⟩

/-- The central characterisation of the fold: starting from accumulator
`acc` and a nonnegative running maximum `m`, the fold returns `acc` when no
score beats `m`, and otherwise the action of the first choice attaining the
overall maximum. -/
lemma pickAux_characterisation (l : List Choice) :
    ∀ (acc : Option Nat) (m : ℚ), 0 ≤ m →
      pickAux l acc m =
        if l.all (fun c => decide (c.score ≤ m)) then acc
        else (l.find? (fun c => decide (bestScore m l ≤ c.score))).map
          Choice.action := by
  induction l with
  | nil => intro acc m _; simp [pickAux]
  | cons c rest ih =>
    intro acc m hm
    by_cases hcm : c.score ≤ m
    · have hcond : c.score ≤ m ∨ c.score ≤ 0 := Or.inl hcm
      rw [pickAux, if_pos hcond, ih acc m hm]
      have hmax : max m c.score = m := max_eq_left hcm
      by_cases hall : rest.all (fun c => decide (c.score ≤ m))
      · rw [if_pos hall, if_pos]
        simp only [List.all_cons, hall, Bool.and_true, decide_eq_true_eq]
        exact hcm
      · rw [if_neg hall, if_neg]
        · have hbest : bestScore m (c :: rest) = bestScore m rest := by
            rw [bestScore_cons, hmax]
          rw [hbest]
          have hcfind : ¬ (bestScore m rest ≤ c.score) := by
            rcases List.all_eq_true.not.mp hall with hx
            push_neg at hx
            rcases hx with ⟨d, hd, hds⟩
            have hds' : m < d.score := by
              by_contra hnot
              exact hds (by simpa using not_lt.mp hnot)
            have : d.score ≤ bestScore m rest := mem_le_bestScore m hd
            exact not_le.mpr (lt_of_le_of_lt hcm (lt_of_lt_of_le hds' this))
          rw [List.find?_cons, decide_eq_false hcfind]
        · rw [List.all_cons]
          intro hboth
          rw [Bool.and_eq_true] at hboth
          exact hall hboth.2
    · have hc0 : ¬ c.score ≤ 0 := fun h => hcm (h.trans hm)
      have hcond : ¬ (c.score ≤ m ∨ c.score ≤ 0) := by
        intro h; rcases h with h | h
        · exact hcm h
        · exact hc0 h
      rw [pickAux, if_neg hcond,
        ih (some c.action) c.score (le_of_lt (not_le.mp hc0))]
      have hmax : max m c.score = c.score :=
        max_eq_right (le_of_lt (not_le.mp hcm))
      have hallfalse : ¬ ((c :: rest).all (fun c => decide (c.score ≤ m)) = true) := by
        rw [List.all_cons]
        intro h
        rw [Bool.and_eq_true] at h
        exact hcm (by simpa using h.1)
      rw [if_neg hallfalse]
      have hbest : bestScore m (c :: rest) = bestScore c.score rest := by
        rw [bestScore_cons, hmax]
      rw [hbest]
      by_cases hall : rest.all (fun d => decide (d.score ≤ c.score))
      · have heq : bestScore c.score rest = c.score :=
          bestScore_of_all_le (fun d hd => by
            have := List.all_eq_true.mp hall d hd
            simpa using this)
        rw [if_pos hall, List.find?_cons,
          decide_eq_true (le_of_eq heq)]
        rfl
      · have hgt : c.score < bestScore c.score rest := by
          rcases List.all_eq_true.not.mp hall with hx
          push_neg at hx
          rcases hx with ⟨d, hd, hds⟩
          have hds' : c.score < d.score := by
            by_contra hnot
            exact hds (by simpa using not_lt.mp hnot)
          exact lt_of_lt_of_le hds' (mem_le_bestScore c.score hd)
        rw [if_neg hall, List.find?_cons, decide_eq_false (not_le.mpr hgt)]

lemma pick_eq_pickAux (l : List Choice) :
    ∀ st : Option Nat × ℚ,
      (l.foldl
        (fun (st : Option Nat × ℚ) choice =>
          if choice.score ≤ st.2 ∨ choice.score ≤ 0 then st
          else (some choice.action, choice.score)) st).1
        = pickAux l st.1 st.2 := by
  induction l with
  | nil => intro st; rfl
  | cons c rest ih =>
    intro st
    rw [List.foldl_cons, pickAux]
    by_cases h : c.score ≤ st.2 ∨ c.score ≤ 0
    · rw [if_pos h, if_pos h, ih]
    · rw [if_neg h, if_neg h, ih]

/-- `Highest.pick` equals the spec-side first-of-the-maxima rule. -/
lemma pick_eq_highestSpec (l : List Choice) :
    Highest.pick l = highestSpec l := by
  rw [Highest.pick, pick_eq_pickAux l (none, 0),
    pickAux_characterisation l none 0 le_rfl, highestSpec]
  by_cases hall : l.all (fun c => decide (c.score ≤ 0))
  · rw [if_pos hall, if_pos]
    have : bestScore 0 l = 0 :=
      bestScore_of_all_le (fun c hc => by
        simpa using List.all_eq_true.mp hall c hc)
    rw [this]
  · rw [if_neg hall, if_neg]
    intro hbest
    apply hall
    apply List.all_eq_true.mpr
    intro c hc
    simpa using le_trans (mem_le_bestScore 0 hc) hbest

/-! ## Measures and composite scorers (`src/measures.rs`, `src/scorer.rs`)

Scores and weights are embedded as rationals.  The one operation `f32`
has that `ℚ` lacks is `powf(0.5)` in `weighted_measure`; it is abstracted
as an arbitrary function `sqrt : ℚ → ℚ`, and every theorem below holds for
every instantiation of it (the square root is applied after the
divide-by-zero guard and before the threshold/clamp stage, whose output
bound does not depend on it).  `x.powf(2.0)` is `x ^ 2`;
`f32::clamp(0.0, 1.0)` is `min (max x 0) 1`; the checked mutator
`Score::set` (which panics outside `0.0..=1.0`, `src/scorer.rs` lines
104-109) returns `none` on a would-be panic. -/

/-- `WeightedScore` (`src/measures.rs` lines 37-47). -/
structure WeightedScore : Type where
  score : ℚ
  weight : ℚ
deriving DecidableEq, Repr

/-- `WeightedScore::product`. -/
def WeightedScore.product (s : WeightedScore) : ℚ := s.score * s.weight

/-- `weighted_sum` (`src/measures.rs` lines 52-55). -/
def weighted_sum (scores : List WeightedScore) : ℚ :=
  (scores.map WeightedScore.product).sum

/-- `weighted_product` (`src/measures.rs` lines 57-60). -/
def weighted_product (scores : List WeightedScore) : ℚ :=
  (scores.map WeightedScore.product).prod

/-- `chebyshev_distance` (`src/measures.rs` lines 62-67): fold of
`score.max(best)` starting from `0.0`. -/
def chebyshev_distance (scores : List WeightedScore) : ℚ :=
  (scores.map WeightedScore.product).foldl (fun best score => max score best) 0

/-- `weighted_measure` (`src/measures.rs` lines 70-78): the normalised
quadratic measure with the explicit `wsum == 0.0` guard returning the
fallback `0`.  The final `powf(0.5)` is the abstracted `sqrt`
parameter. -/
def weighted_measure (sqrt : ℚ → ℚ) (scores : List WeightedScore) : ℚ :=
  let wsum := (scores.map WeightedScore.weight).sum
  if wsum = 0 then 0
  else sqrt ((scores.map (fun s => s.weight / wsum * s.score ^ 2)).sum)

/-- `f32::clamp(0.0, 1.0)`. -/
def clamp01 (x : ℚ) : ℚ := min (max x 0) 1

/-- `Score::set` (`src/scorer.rs` lines 104-109): `none` models the panic
on a value outside `0.0..=1.0`. -/
def Score.set (value : ℚ) : Option ℚ :=
  if 0 ≤ value ∧ value ≤ 1 then some value else none

/-- The value written by `measured_scorers_system` (`src/measures.rs` lines
164-185) for one composite: apply the measure to the zipped child scores
and weights, zero it below the threshold, and clamp to `[0,1]`. -/
def measured_scorer_value (threshold : ℚ)
    (measure : List WeightedScore → ℚ) (childScores weights : List ℚ) : ℚ :=
  let cache := (childScores.zip weights).map
    (fun p => { score := p.1, weight := p.2 : WeightedScore })
  let score := measure cache
  clamp01 (if score ≥ threshold then score else 0)

/-- The `sum`/`break` loop of `all_or_nothing_system` (`src/scorer.rs`
lines 231-248): any child below the threshold zeroes the total and stops
the scan. -/
def aonLoop (threshold : ℚ) : List ℚ → ℚ → ℚ
  | [], sum => sum
  | s :: rest, sum =>
    if s < threshold then 0 else aonLoop threshold rest (sum + s)

/-- The value written by `all_or_nothing_system`. -/
def all_or_nothing_value (threshold : ℚ) (childScores : List ℚ) : ℚ :=
  clamp01 (aonLoop threshold childScores 0)

/-- The value written by `sum_of_scorers_system` (`src/scorer.rs` lines
280-295). -/
def sum_of_scorers_value (threshold : ℚ) (childScores : List ℚ) : ℚ :=
  let sum := childScores.sum
  clamp01 (if sum < threshold then 0 else sum)

/-- The value written by `product_of_scorers_system` (`src/scorer.rs`
lines 333-351). -/
def product_of_scorers_value (threshold : ℚ) (childScores : List ℚ) : ℚ :=
  let product := childScores.prod
  clamp01 (if product < threshold then 0 else product)

/-- The value written by `compensated_product_of_scorers_system`
(`src/scorer.rs` lines 364-390), with the child-count compensation
`product += (1 - product) * (1 - 1/n) * product` applied below `1`. -/
def compensated_product_value (threshold : ℚ) (childScores : List ℚ) : ℚ :=
  let product := childScores.prod
  let product :=
    if product < 1 then
      let mod_factor := 1 - 1 / (childScores.length : ℚ)
      let makeup := (1 - product) * mod_factor
      product + makeup * product
    else product
  clamp01 (if product < threshold then 0 else product)

/-- The value written by `winning_scorer_system` (`src/scorer.rs` lines
424-447): the greatest child score (the last element after sorting
ascending) if it clears the threshold, else `0`. -/
def winning_scorer_value (threshold : ℚ) (childScores : List ℚ) : ℚ :=
  let winner :=
    match (childScores.mergeSort (fun a b => decide (a ≤ b))).getLast? with
    | some s => if s ≥ threshold then s else 0
    | none => 0
  clamp01 winner

lemma clamp01_mem (x : ℚ) : 0 ≤ clamp01 x ∧ clamp01 x ≤ 1 :=
  ⟨le_min (le_max_right x 0) zero_le_one, min_le_right _ _⟩

lemma Score.set_clamp01 (x : ℚ) : Score.set (clamp01 x) = some (clamp01 x) := by
  rw [Score.set, if_pos (clamp01_mem x)]

/-! ## The Thinker reconciliation loop (`src/thinker.rs`)

`src/thinker.rs` is a revision built against a five-state lifecycle whose
`ActionState` also has a `Requested` variant (its `ThinkerBuilder::spawn`
inserts `ActionState::Requested` and `thinker_system` matches on it); that
revision of `action.rs` is not in the tree, so the enum is reproduced here
from the variants `thinker.rs` itself matches on, and its initial state
follows `ThinkerBuilder::spawn`.  `RActionState` names that five-state
enum.

An `ActionInner` is a behaviour template; per the design notes, template
identity (`id_eq`, originally `Arc` pointer equality) is an opaque identity
token compared for equality.  `ThinkerEnv` carries the `Thinker` component
fields, the handle of the thinker entity itself, the per-entity
`ActionState` store that `thinker_system` reads and writes (`Query<&mut
ActionState>`), and a fresh-handle allocator.  Spawning an action allocates
a fresh entity; `DespawnRecursive` removes an entity from the store.
Fallible lookups (`unwrap`/`expect`) are modelled in the `Option` monad. -/

/-- The five-state lifecycle used by the `src/thinker.rs` revision.
Modelled from the spec: §9 records the historical variant in which a
`Requested` state precedes `Executing`; the variants are exactly those
`thinker_system` matches on. -/
inductive RActionState : Type where
  | Requested : RActionState
  | Executing : RActionState
  | Cancelled : RActionState
  | Success : RActionState
  | Failure : RActionState
deriving DecidableEq, Repr

/-- Terminal check used throughout `thinker_system`
(`matches!(state, Success | Failure)`). -/
def RActionState.is_done : RActionState → Bool
  | .Success => true
  | .Failure => true
  | _ => false

/-- An action template (`ActionInner`).  Modelled from the spec: templates
are opaque descriptors compared by a stable per-instantiation identity
token (`id_eq` was `Arc::ptr_eq`); instantiating one spawns a fresh action
entity. -/
structure ActionInner : Type where
  id : Nat
deriving DecidableEq, Repr

/-- `ActionInner::id_eq`: compare identity tokens. -/
def ActionInner.id_eq (a b : ActionInner) : Bool := a.id == b.id

/-- The `Thinker` component (`src/thinker.rs` lines 64-71); the picker is
kept outside the state (its result is a parameter of the tick), and
`choices` live behind the picker. -/
structure Thinker : Type where
  otherwise : Option ActionInner
  current_action : Option (Nat × ActionInner)
  scheduled_actions : List ActionInner
deriving DecidableEq

/-- The state a single thinker's tick operates on: the `Thinker` component,
the thinker's own entity handle, the `ActionState` store, and the entity
allocator. -/
structure ThinkerEnv : Type where
  thinker : Thinker
  thinkerEntity : Nat
  states : Nat → Option RActionState
  nextEntity : Nat

/-- Write one entity's `ActionState`. -/
def ThinkerEnv.setState (env : ThinkerEnv) (e : Nat) (s : RActionState) :
    ThinkerEnv :=
  { env with states := fun x => if x = e then some s else env.states x }

/-- Replace the `current_action` slot. -/
def ThinkerEnv.setSlot (env : ThinkerEnv) (slot : Option (Nat × ActionInner)) :
    ThinkerEnv :=
  { env with thinker := { env.thinker with current_action := slot } }

/-- `DespawnRecursive` of an action entity. -/
def ThinkerEnv.despawn (env : ThinkerEnv) (e : Nat) : ThinkerEnv :=
  { env with states := fun x => if x = e then none else env.states x }

/-- `ActionInner::spawn`: allocate a fresh action entity.  Modelled from
the spec (the revision's `action.rs` is not in the tree): a newly spawned
action is armed in `Requested`, the state `ThinkerBuilder::spawn` itself
inserts (`src/thinker.rs` line 140) and the pre-execution state §9
describes. -/
def ThinkerEnv.spawnAction (env : ThinkerEnv) : Nat × ThinkerEnv :=
  (env.nextEntity,
    { env with
      states := fun e =>
        if e = env.nextEntity then some .Requested else env.states e
      nextEntity := env.nextEntity + 1 })

/-- Pop the front of the scheduled-actions queue. -/
def ThinkerEnv.setQueue (env : ThinkerEnv) (q : List ActionInner) : ThinkerEnv :=
  { env with thinker := { env.thinker with scheduled_actions := q } }

/-- `Thinker::should_schedule_action` (`src/thinker.rs` lines 302-311):
false on an empty queue; with a current action, true iff that action is
terminal; true otherwise. -/
def Thinker.should_schedule_action (env : ThinkerEnv) : Option Bool :=
  if env.thinker.scheduled_actions.isEmpty then some false
  else
    match env.thinker.current_action with
    | some (action_ent, _) =>
      match env.states action_ent with
      | none => none
      | some state => some state.is_done
    | none => some true

/-- `Thinker::exec_picked_action` (`src/thinker.rs` lines 314-377). -/
def Thinker.exec_picked_action (env : ThinkerEnv) (next : ActionInner)
    (override_current : Bool) : Option ThinkerEnv :=
  match env.thinker.current_action with
  | some (action, current) =>
    match env.states action with
    | none => none
    | some current_state =>
      let previous_done := current_state.is_done
      if (!(current.id_eq next) && override_current) || previous_done then
        match current_state with
        | .Executing | .Requested => some (env.setState action .Cancelled)
        | .Success | .Failure =>
          let env1 := env.despawn action
          let spawned := env1.spawnAction
          some (spawned.2.setSlot (some (spawned.1, next)))
        | .Cancelled => some env
      else some env
  | none =>
    let spawned := env.spawnAction
    some (spawned.2.setSlot (some (spawned.1, next)))

/-- One thinker's turn of `thinker_system` (`src/thinker.rs` lines
228-299), with the picker's result (`picker.pick(&choices, &scores)`)
supplied as the `pick` parameter. -/
def thinker_system (pick : Option ActionInner) (env : ThinkerEnv) :
    Option ThinkerEnv :=
  match env.states env.thinkerEntity with
  | none => none
  | some tstate =>
    match tstate with
    | .Requested => some (env.setState env.thinkerEntity .Executing)
    | .Executing =>
      match pick with
      | some action => Thinker.exec_picked_action env action true
      | none =>
        match Thinker.should_schedule_action env with
        | none => none
        | some true =>
          match env.thinker.scheduled_actions with
          | [] => none
          | action :: rest =>
            let env1 := env.setQueue rest
            let spawned := env1.spawnAction
            some (spawned.2.setSlot (some (spawned.1, action)))
        | some false =>
          match env.thinker.otherwise with
          | some default_action =>
            Thinker.exec_picked_action env default_action false
          | none =>
            match env.thinker.current_action with
            | some (action, _) =>
              match env.states action with
              | none => none
              | some state =>
                if state.is_done then
                  some ((env.despawn action).setSlot none)
                else some env
            | none => some env
    | .Success | .Failure => some env
    | .Cancelled =>
      match env.thinker.current_action with
      | some (current, _) =>
        match env.states current with
        | none => none
        | some state =>
          match state with
          | .Requested | .Executing => some (env.setState current .Cancelled)
          | .Cancelled => some env
          | .Success | .Failure =>
            some ((env.despawn current).setSlot none)
      | none => some (env.setState env.thinkerEntity .Success)

/-! ### Concrete thinker environments used by witnesses and counterexamples -/

/-- Thinker entity `0` executing; running action entity `1` (spawned from
template `10`) still `Executing`; one scheduled template `11`; no default
action. -/
def envSched : ThinkerEnv :=
  { thinker :=
      { otherwise := none
        current_action := some (1, { id := 10 })
        scheduled_actions := [{ id := 11 }] }
    thinkerEntity := 0
    states := fun e =>
      if e = 0 then some .Executing
      else if e = 1 then some .Executing else none
    nextEntity := 2 }

/-- Thinker entity `0` executing; running action entity `1` (spawned from
template `10`) still `Executing`; empty queue; no default action. -/
def envRun : ThinkerEnv :=
  { thinker :=
      { otherwise := none
        current_action := some (1, { id := 10 })
        scheduled_actions := [] }
    thinkerEntity := 0
    states := fun e =>
      if e = 0 then some .Executing
      else if e = 1 then some .Executing else none
    nextEntity := 2 }

/-- Thinker entity `0` executing; running action entity `1` (spawned from
template `10`) already `Success`; empty queue; no default action. -/
def envDone : ThinkerEnv :=
  { thinker :=
      { otherwise := none
        current_action := some (1, { id := 10 })
        scheduled_actions := [] }
    thinkerEntity := 0
    states := fun e =>
      if e = 0 then some .Executing
      else if e = 1 then some .Success else none
    nextEntity := 2 }

/-- A Step composite already terminal (`Success`) with no children. -/
def stepDone : StepEnv :=
  { this_state := .Success, active_step := 0, numSteps := 1
    children := [], states := fun _ => none, nextEntity := 1 }

/-- A Step composite executing whose single child `1` has failed. -/
def stepFailing : StepEnv :=
  { this_state := .Executing, active_step := 0, numSteps := 1
    children := [1]
    states := fun e => if e = 1 then some .Failure else none
    nextEntity := 2 }

/-! ## Claim theorems -/

/-- C3 counterexample: the claim asserts that for a Join in `Executing`
with children `[Success, Failure, Executing]` the `Executing` child at
index 2 (after the failure index 1) is not force-cancelled; in the code
the scan cancels any child found `Executing` once a failure has already
been observed, so that child ends the step `Cancelled`, not
`Executing`. -/
theorem C3_counterexample :
    (exec_join .Executing [.Success, .Failure, .Executing]).2.get? 2
        = some .Cancelled
      ∧ (exec_join .Executing [.Success, .Failure, .Executing]).2.get? 2
        ≠ some .Executing := by decide

/-- C3 (amended): for a Join in `Executing` with three children, all three
`Success` makes the Join `Success` in one step; children
`[Success, Failure, Executing]` make the Join `Failure`, force-cancel
non-terminal children before the failure index, and also cancel the child
at index 2 found `Executing` after the failure at index 1 was observed
during the same scan, leaving `[Success, Failure, Cancelled]`. -/
theorem C3_join_step :
    exec_join .Executing [.Success, .Success, .Success]
        = (.Success, [.Success, .Success, .Success])
      ∧ exec_join .Executing [.Success, .Failure, .Executing]
        = (.Failure, [.Success, .Failure, .Cancelled]) := by decide

/-- C4 counterexample: the claim asserts that for a Race in `Executing`
with children `[Executing, Success, Executing]` the `Executing` child at
index 2 (after the succeeding index 1) is left uncancelled; in the code
the scan cancels any child found `Executing` once a success has already
been observed, so that child ends the step `Cancelled`. -/
theorem C4_counterexample :
    (exec_race .Executing [.Executing, .Success, .Executing]).2.get? 2
        = some .Cancelled
      ∧ (exec_race .Executing [.Executing, .Success, .Executing]).2.get? 2
        ≠ some .Executing := by decide

/-- C4 (amended): for a Race in `Executing` with children
`[Executing, Success, Executing]`, one step makes the Race `Success`,
cancels the still-`Executing` child at index 0 (before the succeeding
index), and also cancels the child at index 2 found `Executing` after the
success at index 1 was observed during the same scan, leaving
`[Cancelled, Success, Cancelled]`. -/
theorem C4_race_step :
    exec_race .Executing [.Executing, .Success, .Executing]
      = (.Success, [.Cancelled, .Success, .Cancelled]) := by decide

/-- C5: Step sequential progression.  For an `Executing` Step whose single
live child reports `Success` and which is not on its last step, the child
is despawned, the next step is freshly instantiated as the single live
child, and the Step stays `Executing` with the step counter advanced; on
the last step's `Success` the Step becomes `Success` with no live
children; on a child's `Failure` the child is despawned and the Step
becomes `Failure` with no further step instantiated. -/
theorem C5_step_progression :
    (∀ (env : StepEnv) (a : Nat),
      env.this_state = .Executing → env.children = [a] →
      env.states a = some .Success → a ≠ env.nextEntity →
      env.active_step + 1 < env.numSteps →
      ∃ env', exec_step env = some env'
        ∧ env'.this_state = .Executing
        ∧ env'.children = [env.nextEntity]
        ∧ env'.states env.nextEntity = some .Executing
        ∧ env'.states a = none
        ∧ env'.active_step = env.active_step + 1)
    ∧ (∀ (env : StepEnv) (a : Nat),
      env.this_state = .Executing → env.children = [a] →
      env.states a = some .Success →
      env.active_step + 1 = env.numSteps →
      ∃ env', exec_step env = some env'
        ∧ env'.this_state = .Success
        ∧ env'.children = []
        ∧ env'.states a = none
        ∧ env'.nextEntity = env.nextEntity)
    ∧ (∀ (env : StepEnv) (a : Nat),
      env.this_state = .Executing → env.children = [a] →
      env.states a = some .Failure →
      ∃ env', exec_step env = some env'
        ∧ env'.this_state = .Failure
        ∧ env'.children = []
        ∧ env'.states a = none
        ∧ env'.nextEntity = env.nextEntity
        ∧ env'.active_step = env.active_step) := by
  refine ⟨?_, ?_, ?_⟩
  · intro env a hthis hch hst hfresh hlast
    have hne : (env.active_step == env.numSteps - 1) = false := by
      simp only [beq_eq_false_iff_ne, ne_eq]
      omega
    rw [exec_step, hch]
    simp only [List.head?_cons, hst, hthis, hne]
    refine ⟨_, rfl, ?_, ?_, ?_, ?_, ?_⟩ <;>
      simp [StepEnv.spawnChild, StepEnv.despawn, hthis, hch, hfresh]
  · intro env a hthis hch hst hlast
    have heq : (env.active_step == env.numSteps - 1) = true := by
      simp only [beq_iff_eq]
      omega
    rw [exec_step, hch]
    simp only [List.head?_cons, hst, hthis, heq]
    refine ⟨_, rfl, ?_, ?_, ?_, ?_⟩ <;>
      simp [StepEnv.despawn, hthis, hch]
  · intro env a hthis hch hst
    rw [exec_step, hch]
    simp only [List.head?_cons, hst, hthis]
    refine ⟨_, rfl, ?_, ?_, ?_, ?_, ?_⟩ <;>
      simp [StepEnv.despawn, hthis, hch]

/-- C5 witness: the three cases of `C5_step_progression` instantiated on
concrete Step environments. -/
theorem C5_step_progression_witness :
    (∃ env', exec_step
        { this_state := .Executing, active_step := 0, numSteps := 3
          children := [1]
          states := fun e => if e = 1 then some .Success else none
          nextEntity := 2 } = some env'
      ∧ env'.this_state = .Executing
      ∧ env'.children = [2]
      ∧ env'.states 2 = some .Executing
      ∧ env'.states 1 = none
      ∧ env'.active_step = 0 + 1)
    ∧ (∃ env', exec_step
        { this_state := .Executing, active_step := 2, numSteps := 3
          children := [5]
          states := fun e => if e = 5 then some .Success else none
          nextEntity := 6 } = some env'
      ∧ env'.this_state = .Success
      ∧ env'.children = []
      ∧ env'.states 5 = none
      ∧ env'.nextEntity = 6)
    ∧ (∃ env', exec_step
        { this_state := .Executing, active_step := 0, numSteps := 3
          children := [1]
          states := fun e => if e = 1 then some .Failure else none
          nextEntity := 2 } = some env'
      ∧ env'.this_state = .Failure
      ∧ env'.children = []
      ∧ env'.states 1 = none
      ∧ env'.nextEntity = 2
      ∧ env'.active_step = 0) := by
  refine ⟨?_, ?_, ?_⟩
  · exact C5_step_progression.1 _ 1 rfl rfl (by simp) (by decide) (by decide)
  · exact C5_step_progression.2.1 _ 5 rfl rfl (by simp) (by decide)
  · exact C5_step_progression.2.2 _ 1 rfl rfl (by simp)

/-- C10: a Step sequence built over an empty action list spawns no child,
every tick of the sequence system returns early leaving any such
environment (whatever its own state, e.g. externally `Cancelled`)
untouched, and hence over any number of ticks its state never becomes
`Success` or `Failure`. -/
theorem C10_empty_step_never_terminates :
    (SequenceSpawner.spawnStep 0).children = []
    ∧ (SequenceSpawner.spawnStep 0).this_state = .Executing
    ∧ (∀ env : StepEnv, env.children = [] → exec_step env = some env)
    ∧ (∀ n, exec_step_iter n (SequenceSpawner.spawnStep 0)
        = some (SequenceSpawner.spawnStep 0))
    ∧ (∀ n, (exec_step_iter n (SequenceSpawner.spawnStep 0)).map
          StepEnv.this_state ≠ some .Success
        ∧ (exec_step_iter n (SequenceSpawner.spawnStep 0)).map
          StepEnv.this_state ≠ some .Failure) := by
  have hfix : ∀ env : StepEnv, env.children = [] → exec_step env = some env := by
    intro env hch
    rw [exec_step, hch]
    rfl
  have hiter : ∀ n, exec_step_iter n (SequenceSpawner.spawnStep 0)
      = some (SequenceSpawner.spawnStep 0) := by
    intro n
    induction n with
    | zero => rfl
    | succ k ih =>
      rw [exec_step_iter, hfix _ rfl]
      exact ih
  refine ⟨rfl, rfl, hfix, hiter, ?_⟩
  intro n
  rw [hiter n]
  exact ⟨by decide, by decide⟩

/-- C10 witness: one tick of the empty Step sequence, with the
empty-children hypothesis discharged on the spawned environment itself. -/
theorem C10_empty_step_witness :
    (SequenceSpawner.spawnStep 0).children = []
    ∧ exec_step (SequenceSpawner.spawnStep 0)
      = some (SequenceSpawner.spawnStep 0) :=
  ⟨rfl, C10_empty_step_never_terminates.2.2.1 (SequenceSpawner.spawnStep 0) rfl⟩

/-- C6: `Highest` returns the action of the choice with the strictly
greatest score among those strictly above its built-in threshold `0`, the
earliest of equal maxima winning (strict `>` against a running maximum);
it returns `none` exactly when no choice has a positive score; and on
scores `[0.4, 0.9, 0.9]` it selects the choice at index 1, not index 2. -/
theorem C6_highest_picker :
    (∀ choices : List Choice, Highest.pick choices = highestSpec choices)
    ∧ (∀ choices : List Choice,
        Highest.pick choices = none ↔ ∀ c ∈ choices, c.score ≤ 0)
    ∧ Highest.pick
        [{ score := 2/5, action := 10 }, { score := 9/10, action := 11 },
          { score := 9/10, action := 12 }] = some 11 := by
  have hnone : ∀ choices : List Choice,
      Highest.pick choices = none ↔ ∀ c ∈ choices, c.score ≤ 0 := by
    intro l
    rw [pick_eq_highestSpec, highestSpec]
    constructor
    · intro h c hc
      by_cases hb : bestScore 0 l ≤ 0
      · exact le_trans (mem_le_bestScore 0 hc) hb
      · exfalso
        rw [if_neg hb] at h
        rcases bestScore_attained (m := 0) (l := l) with h0 | ⟨d, hd, hds⟩
        · exact hb (le_of_eq h0)
        · have : List.find? (fun c => decide (bestScore 0 l ≤ c.score)) l ≠ none := by
            intro hfind
            have := List.find?_eq_none.mp hfind d hd
            simp only [decide_eq_true_eq] at this
            exact this (le_of_eq hds)
          rcases Option.ne_none_iff_exists.mp this with ⟨c, hc'⟩
          rw [← hc'] at h
          exact Option.noConfusion h
    · intro h
      rw [if_pos (le_of_eq (bestScore_of_all_le h))]
  refine ⟨pick_eq_highestSpec, hnone, ?_⟩
  rw [Highest.pick]
  norm_num [List.foldl]

/-- C6 witness: the no-qualifier direction of `C6_highest_picker`
instantiated on a concrete choice list with only non-positive scores. -/
theorem C6_highest_picker_witness :
    (∀ c ∈ [{ score := -1, action := 5 }, { score := 0, action := 6 }],
      Choice.score c ≤ 0)
    ∧ Highest.pick
        [{ score := -1, action := 5 }, { score := 0, action := 6 }] = none :=
  ⟨by decide, (C6_highest_picker.2.1 _).mpr (by decide)⟩

/-- C7: every composite scorer evaluation — `AllOrNothing`,
`SumOfScorers`, `ProductOfScorers`, `CompensatedProductOfScorers`,
`WinningScorer`, and `MeasuredScorer` with any measure (in particular
`weighted_measure` under any instantiation of its square root) — writes a
value in `[0, 1]` through the checked `Score::set` (so the write never
panics), for any child scores in `[0, 1]` and any weight configuration;
and with total weight `0` the normalised `weighted_measure` returns the
fallback `0` rather than dividing by zero. -/
theorem C7_composite_score_bound :
    (∀ (threshold : ℚ) (measure : List WeightedScore → ℚ)
      (childScores weights : List ℚ),
      (∀ s ∈ childScores, 0 ≤ s ∧ s ≤ 1) →
      Score.set (measured_scorer_value threshold measure childScores weights)
          = some (measured_scorer_value threshold measure childScores weights)
        ∧ 0 ≤ measured_scorer_value threshold measure childScores weights
        ∧ measured_scorer_value threshold measure childScores weights ≤ 1)
    ∧ (∀ (threshold : ℚ) (childScores : List ℚ),
      (∀ s ∈ childScores, 0 ≤ s ∧ s ≤ 1) →
      Score.set (all_or_nothing_value threshold childScores)
          = some (all_or_nothing_value threshold childScores)
        ∧ 0 ≤ all_or_nothing_value threshold childScores
        ∧ all_or_nothing_value threshold childScores ≤ 1)
    ∧ (∀ (threshold : ℚ) (childScores : List ℚ),
      (∀ s ∈ childScores, 0 ≤ s ∧ s ≤ 1) →
      Score.set (sum_of_scorers_value threshold childScores)
          = some (sum_of_scorers_value threshold childScores)
        ∧ 0 ≤ sum_of_scorers_value threshold childScores
        ∧ sum_of_scorers_value threshold childScores ≤ 1)
    ∧ (∀ (threshold : ℚ) (childScores : List ℚ),
      (∀ s ∈ childScores, 0 ≤ s ∧ s ≤ 1) →
      Score.set (product_of_scorers_value threshold childScores)
          = some (product_of_scorers_value threshold childScores)
        ∧ 0 ≤ product_of_scorers_value threshold childScores
        ∧ product_of_scorers_value threshold childScores ≤ 1)
    ∧ (∀ (threshold : ℚ) (childScores : List ℚ),
      (∀ s ∈ childScores, 0 ≤ s ∧ s ≤ 1) →
      Score.set (compensated_product_value threshold childScores)
          = some (compensated_product_value threshold childScores)
        ∧ 0 ≤ compensated_product_value threshold childScores
        ∧ compensated_product_value threshold childScores ≤ 1)
    ∧ (∀ (threshold : ℚ) (childScores : List ℚ),
      (∀ s ∈ childScores, 0 ≤ s ∧ s ≤ 1) →
      Score.set (winning_scorer_value threshold childScores)
          = some (winning_scorer_value threshold childScores)
        ∧ 0 ≤ winning_scorer_value threshold childScores
        ∧ winning_scorer_value threshold childScores ≤ 1)
    ∧ (∀ (sqrt : ℚ → ℚ) (scores : List WeightedScore),
      (scores.map WeightedScore.weight).sum = 0 →
      weighted_measure sqrt scores = 0) := by
  refine ⟨?_, ?_, ?_, ?_, ?_, ?_, ?_⟩
  · intro t m cs ws _
    exact ⟨Score.set_clamp01 _, (clamp01_mem _).1, (clamp01_mem _).2⟩
  · intro t cs _
    exact ⟨Score.set_clamp01 _, (clamp01_mem _).1, (clamp01_mem _).2⟩
  · intro t cs _
    exact ⟨Score.set_clamp01 _, (clamp01_mem _).1, (clamp01_mem _).2⟩
  · intro t cs _
    exact ⟨Score.set_clamp01 _, (clamp01_mem _).1, (clamp01_mem _).2⟩
  · intro t cs _
    exact ⟨Score.set_clamp01 _, (clamp01_mem _).1, (clamp01_mem _).2⟩
  · intro t cs _
    exact ⟨Score.set_clamp01 _, (clamp01_mem _).1, (clamp01_mem _).2⟩
  · intro sqrt scores h
    rw [weighted_measure]
    simp only [h, if_pos]

/-- C7 witness: the measured-scorer bound with `weighted_measure` (square
root instantiated with the identity) on child scores `[1/2, 1]` and
weights `[0, 0]` (total weight zero), and the zero-weight fallback on the
same weighted scores. -/
theorem C7_composite_score_bound_witness :
    ((∀ s ∈ [(1 : ℚ)/2, 1], 0 ≤ s ∧ s ≤ 1)
      ∧ Score.set (measured_scorer_value 0 (weighted_measure id)
            [1/2, 1] [0, 0])
          = some (measured_scorer_value 0 (weighted_measure id) [1/2, 1] [0, 0])
      ∧ 0 ≤ measured_scorer_value 0 (weighted_measure id) [1/2, 1] [0, 0]
      ∧ measured_scorer_value 0 (weighted_measure id) [1/2, 1] [0, 0] ≤ 1)
    ∧ (([{ score := 1/2, weight := 0 }, { score := 1, weight := 0 }].map
          WeightedScore.weight).sum = (0 : ℚ)
      ∧ weighted_measure id
          [{ score := 1/2, weight := 0 }, { score := 1, weight := 0 }] = 0) := by
  constructor
  · refine ⟨by norm_num, ?_⟩
    exact C7_composite_score_bound.1 0 (weighted_measure id) [1/2, 1] [0, 0]
      (by norm_num)
  · refine ⟨by norm_num, ?_⟩
    exact C7_composite_score_bound.2.2.2.2.2.2 id _ (by norm_num)

/-- C8: if the Picker returns a template with the same identity (`id_eq`)
as the template of the currently running action and that action is
`Executing`, the tick leaves the environment completely untouched — no
cancellation, no despawn, no re-instantiation, and the `current_action`
slot unchanged. -/
theorem C8_idempotent_repick :
    ∀ (env : ThinkerEnv) (x : Nat) (tx ty : ActionInner),
      env.states env.thinkerEntity = some .Executing →
      env.thinker.current_action = some (x, tx) →
      env.states x = some .Executing →
      tx.id_eq ty = true →
      thinker_system (some ty) env = some env := by
  intro env x tx ty h0 h1 h2 h3
  simp [thinker_system, Thinker.exec_picked_action, h0, h1, h2, h3,
    RActionState.is_done]

/-- C8 witness: re-picking template `10` while action entity `1` is
executing leaves `envRun` unchanged. -/
theorem C8_idempotent_repick_witness :
    thinker_system (some { id := 10 }) envRun = some envRun :=
  C8_idempotent_repick envRun 1 { id := 10 } { id := 10 } rfl rfl rfl rfl

/-! ### Case analysis of the reconciliation step -/

lemma despawn_nextEntity (env : ThinkerEnv) (e : Nat) :
    (env.despawn e).nextEntity = env.nextEntity := rfl

/-- Every successful run of `Thinker::exec_picked_action` has one of four
shapes: a no-op, a cancellation of the current non-terminal action, a
despawn-and-respawn over a terminal current action, or a fresh spawn into
an empty slot. -/
lemma exec_picked_action_cases (env : ThinkerEnv) (next : ActionInner)
    (oc : Bool) (env' : ThinkerEnv)
    (h : Thinker.exec_picked_action env next oc = some env') :
    env' = env
    ∨ (∃ x tx, env.thinker.current_action = some (x, tx)
        ∧ (env.states x = some .Executing ∨ env.states x = some .Requested)
        ∧ env' = env.setState x .Cancelled)
    ∨ (∃ x tx s, env.thinker.current_action = some (x, tx)
        ∧ env.states x = some s ∧ s.is_done = true
        ∧ env' = ((env.despawn x).spawnAction).2.setSlot
            (some (env.nextEntity, next)))
    ∨ (env.thinker.current_action = none
        ∧ env' = (env.spawnAction).2.setSlot (some (env.nextEntity, next))) := by
  rw [Thinker.exec_picked_action] at h
  rcases h1 : env.thinker.current_action with _ | ⟨x, tx⟩ <;> rw [h1] at h <;>
    simp only [] at h
  · exact Or.inr (Or.inr (Or.inr ⟨by simp [h1],
      ((Option.some.injEq _ _).mp h).symm⟩))
  · rcases h2 : env.states x with _ | s <;> rw [h2] at h <;>
      simp only [] at h
    · simp at h
    · split at h
      · cases s
        case Requested =>
          exact Or.inr (Or.inl ⟨x, tx, by simp [h1], Or.inr (by simp [h2]),
            ((Option.some.injEq _ _).mp h).symm⟩)
        case Executing =>
          exact Or.inr (Or.inl ⟨x, tx, by simp [h1], Or.inl (by simp [h2]),
            ((Option.some.injEq _ _).mp h).symm⟩)
        case Cancelled =>
          exact Or.inl ((Option.some.injEq _ _).mp h).symm
        case Success =>
          exact Or.inr (Or.inr (Or.inl ⟨x, tx, .Success, by simp [h1],
            by simp [h2], rfl, ((Option.some.injEq _ _).mp h).symm⟩))
        case Failure =>
          exact Or.inr (Or.inr (Or.inl ⟨x, tx, .Failure, by simp [h1],
            by simp [h2], rfl, ((Option.some.injEq _ _).mp h).symm⟩))
      · exact Or.inl ((Option.some.injEq _ _).mp h).symm

/-- Every successful thinker tick has one of eight shapes; the scheduled
spawn (the last shape) occurs only when no action was picked and the slot
is empty or terminal, and every spawn allocates the fresh handle
`env.nextEntity`. -/
lemma thinker_system_cases (pick : Option ActionInner) (env env' : ThinkerEnv)
    (h : thinker_system pick env = some env') :
    env' = env
    ∨ (env.states env.thinkerEntity = some .Requested
        ∧ env' = env.setState env.thinkerEntity .Executing)
    ∨ (env.states env.thinkerEntity = some .Cancelled
        ∧ env.thinker.current_action = none
        ∧ env' = env.setState env.thinkerEntity .Success)
    ∨ (∃ x tx, env.thinker.current_action = some (x, tx)
        ∧ (env.states x = some .Executing ∨ env.states x = some .Requested)
        ∧ env' = env.setState x .Cancelled)
    ∨ (∃ x tx s, env.thinker.current_action = some (x, tx)
        ∧ env.states x = some s ∧ s.is_done = true
        ∧ env' = (env.despawn x).setSlot none)
    ∨ (∃ x tx s t, env.thinker.current_action = some (x, tx)
        ∧ env.states x = some s ∧ s.is_done = true
        ∧ env' = ((env.despawn x).spawnAction).2.setSlot
            (some (env.nextEntity, t)))
    ∨ (∃ t, env.thinker.current_action = none
        ∧ env' = (env.spawnAction).2.setSlot (some (env.nextEntity, t)))
    ∨ (∃ a rest, pick = none
        ∧ env.thinker.scheduled_actions = a :: rest
        ∧ (env.thinker.current_action = none
          ∨ ∃ x tx s, env.thinker.current_action = some (x, tx)
              ∧ env.states x = some s ∧ s.is_done = true)
        ∧ env' = ((env.setQueue rest).spawnAction).2.setSlot
            (some (env.nextEntity, a))) := by
  rw [thinker_system.eq_def] at h
  rcases h0 : env.states env.thinkerEntity with _ | ts <;> rw [h0] at h <;>
    simp only [] at h
  · simp at h
  · cases ts
    case Requested =>
      exact Or.inr (Or.inl ⟨by simp [h0], ((Option.some.injEq _ _).mp h).symm⟩)
    case Success => exact Or.inl ((Option.some.injEq _ _).mp h).symm
    case Failure => exact Or.inl ((Option.some.injEq _ _).mp h).symm
    case Cancelled =>
      rcases h1 : env.thinker.current_action with _ | ⟨x, tx⟩ <;>
        rw [h1] at h <;> simp only [] at h
      · exact Or.inr (Or.inr (Or.inl ⟨by simp [h0], by simp [h1],
          ((Option.some.injEq _ _).mp h).symm⟩))
      · rcases h2 : env.states x with _ | s <;> rw [h2] at h <;>
          simp only [] at h
        · simp at h
        · cases s
          case Requested =>
            exact Or.inr (Or.inr (Or.inr (Or.inl ⟨x, tx, by simp [h1],
              Or.inr (by simp [h2]), ((Option.some.injEq _ _).mp h).symm⟩)))
          case Executing =>
            exact Or.inr (Or.inr (Or.inr (Or.inl ⟨x, tx, by simp [h1],
              Or.inl (by simp [h2]), ((Option.some.injEq _ _).mp h).symm⟩)))
          case Cancelled => exact Or.inl ((Option.some.injEq _ _).mp h).symm
          case Success =>
            exact Or.inr (Or.inr (Or.inr (Or.inr (Or.inl
              ⟨x, tx, .Success, by simp [h1], by simp [h2], rfl,
                ((Option.some.injEq _ _).mp h).symm⟩))))
          case Failure =>
            exact Or.inr (Or.inr (Or.inr (Or.inr (Or.inl
              ⟨x, tx, .Failure, by simp [h1], by simp [h2], rfl,
                ((Option.some.injEq _ _).mp h).symm⟩))))
    case Executing =>
      rcases hp : pick with _ | t
      · rw [hp] at h
        simp only [] at h
        rcases hs : Thinker.should_schedule_action env with _ | b <;>
          rw [hs] at h
        · simp at h
        · cases b
          · simp only [] at h
            rcases ho : env.thinker.otherwise with _ | d <;> rw [ho] at h <;>
              simp only [] at h
            · rcases h1 : env.thinker.current_action with _ | ⟨x, tx⟩ <;>
                rw [h1] at h <;> simp only [] at h
              · exact Or.inl ((Option.some.injEq _ _).mp h).symm
              · rcases h2 : env.states x with _ | s <;> rw [h2] at h <;>
                  simp only [] at h
                · simp at h
                · by_cases hd : s.is_done = true
                  · rw [if_pos hd] at h
                    exact Or.inr (Or.inr (Or.inr (Or.inr (Or.inl
                      ⟨x, tx, s, by simp [h1], by simp [h2], hd,
                        ((Option.some.injEq _ _).mp h).symm⟩))))
                  · rw [if_neg hd] at h
                    exact Or.inl ((Option.some.injEq _ _).mp h).symm
            · rcases exec_picked_action_cases env d false env' h with
                hA | ⟨x, tx, hx1, hx2, hx3⟩ | ⟨x, tx, s, hx1, hx2, hx3, hx4⟩ |
                  ⟨hx1, hx2⟩
              · exact Or.inl hA
              · exact Or.inr (Or.inr (Or.inr (Or.inl ⟨x, tx, hx1, hx2, hx3⟩)))
              · exact Or.inr (Or.inr (Or.inr (Or.inr (Or.inr (Or.inl
                  ⟨x, tx, s, d, hx1, hx2, hx3, hx4⟩)))))
              · exact Or.inr (Or.inr (Or.inr (Or.inr (Or.inr (Or.inr (Or.inl
                  ⟨d, hx1, hx2⟩))))))
          · simp only [] at h
            rcases hq : env.thinker.scheduled_actions with _ | ⟨a, rest⟩ <;>
              rw [hq] at h <;> simp only [] at h
            · simp at h
            · refine Or.inr (Or.inr (Or.inr (Or.inr (Or.inr (Or.inr (Or.inr
                ⟨a, rest, by simp [hp], by simp [hq], ?_,
                  ((Option.some.injEq _ _).mp h).symm⟩))))))
              rw [Thinker.should_schedule_action] at hs
              by_cases hqe : env.thinker.scheduled_actions.isEmpty
              · rw [if_pos hqe] at hs; simp at hs
              · rw [if_neg hqe] at hs
                rcases h1 : env.thinker.current_action with _ | ⟨x, tx⟩
                · exact Or.inl (by simp [h1])
                · rw [h1] at hs
                  simp only [] at hs
                  rcases h2 : env.states x with _ | s <;> rw [h2] at hs
                  · simp at hs
                  · simp only [Option.some.injEq] at hs
                    exact Or.inr ⟨x, tx, s, by simp [h1], by simp [h2], hs⟩
      · rw [hp] at h
        simp only [] at h
        rcases exec_picked_action_cases env t true env' h with
          hA | ⟨x, tx, hx1, hx2, hx3⟩ | ⟨x, tx, s, hx1, hx2, hx3, hx4⟩ |
            ⟨hx1, hx2⟩
        · exact Or.inl hA
        · exact Or.inr (Or.inr (Or.inr (Or.inl ⟨x, tx, hx1, hx2, hx3⟩)))
        · exact Or.inr (Or.inr (Or.inr (Or.inr (Or.inr (Or.inl
            ⟨x, tx, s, t, hx1, hx2, hx3, hx4⟩)))))
        · exact Or.inr (Or.inr (Or.inr (Or.inr (Or.inr (Or.inr (Or.inl
            ⟨t, hx1, hx2⟩))))))

lemma setState_thinker (env : ThinkerEnv) (e : Nat) (s : RActionState) :
    (env.setState e s).thinker = env.thinker := rfl

lemma setSlot_queue (env : ThinkerEnv) (slot : Option (Nat × ActionInner)) :
    (env.setSlot slot).thinker.scheduled_actions
      = env.thinker.scheduled_actions := rfl

lemma despawn_thinker (env : ThinkerEnv) (e : Nat) :
    (env.despawn e).thinker = env.thinker := rfl

lemma spawnAction_thinker (env : ThinkerEnv) :
    (env.spawnAction).2.thinker = env.thinker := rfl

/-- C2 counterexample: with a non-empty schedule queue (template `11`), a
running non-terminal action (entity `1`, `Executing`) and no pick, the
tick leaves everything untouched — in particular the running action is
not cancelled, contradicting the claim that a non-empty queue forces
cancellation ahead of the picker. -/
theorem C2_counterexample :
    envSched.thinker.scheduled_actions ≠ []
    ∧ envSched.thinker.current_action = some (1, { id := 10 })
    ∧ envSched.states 1 = some .Executing
    ∧ thinker_system none envSched = some envSched
    ∧ (thinker_system none envSched).map (fun e => e.states 1)
      = some (some .Executing) :=
  ⟨by simp [envSched], rfl, rfl, rfl, rfl⟩

/-- C2 (amended): scheduling does not pre-empt arbitration.  The picker is
consulted first: when it returns an action the schedule queue is left
untouched, and a non-empty queue never cancels a running non-terminal
action — with no pick and a running `Executing` action the tick is a
no-op; a scheduled action is spawned (popping the queue) only when there
is no current action or the current action is terminal. -/
theorem C2_schedule_does_not_preempt :
    (∀ (env : ThinkerEnv) (t : ActionInner) (env' : ThinkerEnv),
      thinker_system (some t) env = some env' →
      env'.thinker.scheduled_actions = env.thinker.scheduled_actions)
    ∧ (∀ (env : ThinkerEnv) (x : Nat) (tx : ActionInner),
      env.states env.thinkerEntity = some .Executing →
      env.thinker.current_action = some (x, tx) →
      env.states x = some .Executing →
      env.thinker.scheduled_actions ≠ [] →
      thinker_system none env = some env)
    ∧ (∀ (env : ThinkerEnv) (a : ActionInner) (rest : List ActionInner),
      env.states env.thinkerEntity = some .Executing →
      env.thinker.scheduled_actions = a :: rest →
      env.thinker.current_action = none →
      thinker_system none env
        = some (((env.setQueue rest).spawnAction).2.setSlot
            (some (env.nextEntity, a))))
    ∧ (∀ (env : ThinkerEnv) (a : ActionInner) (rest : List ActionInner)
        (x : Nat) (tx : ActionInner) (s : RActionState),
      env.states env.thinkerEntity = some .Executing →
      env.thinker.scheduled_actions = a :: rest →
      env.thinker.current_action = some (x, tx) →
      env.states x = some s → s.is_done = true →
      thinker_system none env
        = some (((env.setQueue rest).spawnAction).2.setSlot
            (some (env.nextEntity, a)))) := by
  refine ⟨?_, ?_, ?_, ?_⟩
  · intro env t env' h
    rcases thinker_system_cases (some t) env env' h with
      hA | ⟨_, hB⟩ | ⟨_, _, hC⟩ | ⟨x, tx, _, _, hD⟩ | ⟨x, tx, s, _, _, _, hE⟩ |
        ⟨x, tx, s, u, _, _, _, hF⟩ | ⟨u, _, hG⟩ | ⟨a, rest, hp, _⟩
    · rw [hA]
    · rw [hB, setState_thinker]
    · rw [hC, setState_thinker]
    · rw [hD, setState_thinker]
    · rw [hE, setSlot_queue, despawn_thinker]
    · rw [hF, setSlot_queue, spawnAction_thinker, despawn_thinker]
    · rw [hG, setSlot_queue, spawnAction_thinker]
    · simp at hp
  · intro env x tx h0 h1 h2 hq
    have hqe : env.thinker.scheduled_actions.isEmpty = false := by
      cases hql : env.thinker.scheduled_actions
      · exact absurd hql hq
      · rfl
    rcases ho : env.thinker.otherwise with _ | d <;>
      simp [thinker_system, Thinker.should_schedule_action,
        Thinker.exec_picked_action, h0, h1, h2, ho, hqe, RActionState.is_done]
  · intro env a rest h0 hq h1
    simp [thinker_system, Thinker.should_schedule_action, h0, h1, hq]
    rfl
  · intro env a rest x tx s h0 hq h1 h2 hd
    simp [thinker_system, Thinker.should_schedule_action, h0, h1, h2, hq, hd]
    rfl

/-- C2 witness: the no-op conjunct of `C2_schedule_does_not_preempt`
instantiated on `envSched` (queue `[11]`, running `Executing` action `1`),
and the pop-and-spawn conjunct on `envDone` with template `11` scheduled
over the terminal action `1`. -/
theorem C2_schedule_does_not_preempt_witness :
    (envSched.thinker.scheduled_actions ≠ []
      ∧ thinker_system none envSched = some envSched)
    ∧ thinker_system none
        { envDone with thinker :=
            { envDone.thinker with scheduled_actions := [{ id := 11 }] } }
      = some ((({ envDone with thinker :=
            { envDone.thinker with scheduled_actions := [{ id := 11 }] } }
          : ThinkerEnv).setQueue []).spawnAction.2.setSlot (some (2, { id := 11 }))) := by
  constructor
  · exact ⟨by simp [envSched],
      C2_schedule_does_not_preempt.2.1 envSched 1 { id := 10 } rfl rfl rfl
        (by simp [envSched])⟩
  · exact C2_schedule_does_not_preempt.2.2.2 _ { id := 11 } [] 1 { id := 10 }
      .Success rfl rfl rfl rfl rfl

lemma setState_nextEntity (env : ThinkerEnv) (e : Nat) (s : RActionState) :
    (env.setState e s).nextEntity = env.nextEntity := rfl

lemma setSlot_nextEntity (env : ThinkerEnv)
    (slot : Option (Nat × ActionInner)) :
    (env.setSlot slot).nextEntity = env.nextEntity := rfl

lemma setSlot_states (env : ThinkerEnv) (slot : Option (Nat × ActionInner)) :
    (env.setSlot slot).states = env.states := rfl

lemma spawnAction_states_ne (env : ThinkerEnv) (e : Nat)
    (h : e ≠ env.nextEntity) :
    (env.spawnAction).2.states e = env.states e := by
  simp [ThinkerEnv.spawnAction, h]

lemma despawn_states_self (env : ThinkerEnv) (e : Nat) :
    (env.despawn e).states e = none := by
  simp [ThinkerEnv.despawn]

/-- C1: cancel-before-replace.  If the running action `x` is `Executing`
and the picker selects a template `ty` with a different identity, the tick
does exactly one thing: it sets `x` to `Cancelled` (slot, queue, store and
allocator otherwise untouched — in particular `ty` is not instantiated).
A tick driven by a pick instantiates a new action over an occupied slot
only if the occupant was terminal, and then the occupant is despawned in
the same tick; and no tick whatsoever instantiates anything while the slot
holds a non-terminal action. -/
theorem C1_cancel_before_replace :
    (∀ (env : ThinkerEnv) (x : Nat) (tx ty : ActionInner),
      env.states env.thinkerEntity = some .Executing →
      env.thinker.current_action = some (x, tx) →
      env.states x = some .Executing →
      tx.id_eq ty = false →
      thinker_system (some ty) env = some (env.setState x .Cancelled))
    ∧ (∀ (env : ThinkerEnv) (x : Nat) (tx ty : ActionInner)
        (s : RActionState) (env' : ThinkerEnv),
      env.thinker.current_action = some (x, tx) →
      env.states x = some s →
      x < env.nextEntity →
      thinker_system (some ty) env = some env' →
      env'.nextEntity ≠ env.nextEntity →
      (s = .Success ∨ s = .Failure) ∧ env'.states x = none)
    ∧ (∀ (env : ThinkerEnv) (x : Nat) (tx : ActionInner) (s : RActionState)
        (pick : Option ActionInner) (env' : ThinkerEnv),
      env.thinker.current_action = some (x, tx) →
      env.states x = some s →
      s.is_done = false →
      thinker_system pick env = some env' →
      env'.nextEntity = env.nextEntity) := by
  refine ⟨?_, ?_, ?_⟩
  · intro env x tx ty h0 h1 h2 h3
    simp [thinker_system, Thinker.exec_picked_action, h0, h1, h2, h3,
      RActionState.is_done]
  · intro env x tx ty s env' h1 h2 hx h hne
    rcases thinker_system_cases (some ty) env env' h with
      hA | ⟨_, hB⟩ | ⟨_, _, hC⟩ | ⟨y, tz, _, _, hD⟩ | ⟨y, tz, s', _, _, _, hE⟩ |
        ⟨y, tz, s', t, hslot, hst, hdone, hF⟩ | ⟨t, hslot, hG⟩ |
        ⟨a, rest, hp, _⟩
    · exact absurd (by rw [hA]) hne
    · exact absurd (by rw [hB, setState_nextEntity]) hne
    · exact absurd (by rw [hC, setState_nextEntity]) hne
    · exact absurd (by rw [hD, setState_nextEntity]) hne
    · exact absurd (by rw [hE, setSlot_nextEntity, despawn_nextEntity]) hne
    · rw [h1] at hslot
      injection hslot with hslot
      injection hslot with hy htz
      subst hy
      rw [h2] at hst
      injection hst with hst
      subst hst
      constructor
      · cases s <;> simp_all [RActionState.is_done]
      · rw [hF, setSlot_states, spawnAction_states_ne _ _ (by
          rw [despawn_nextEntity]; omega)]
        exact despawn_states_self env x
    · rw [h1] at hslot
      exact Option.noConfusion hslot
    · exact absurd hp (by simp)
  · intro env x tx s pick env' h1 h2 hnd h
    rcases thinker_system_cases pick env env' h with
      hA | ⟨_, hB⟩ | ⟨_, _, hC⟩ | ⟨y, tz, _, _, hD⟩ | ⟨y, tz, s', _, _, _, hE⟩ |
        ⟨y, tz, s', t, hslot, hst, hdone, hF⟩ | ⟨t, hslot, hG⟩ |
        ⟨a, rest, hp, hq, hforms, hH⟩
    · rw [hA]
    · rw [hB, setState_nextEntity]
    · rw [hC, setState_nextEntity]
    · rw [hD, setState_nextEntity]
    · rw [hE, setSlot_nextEntity, despawn_nextEntity]
    · rw [h1] at hslot
      injection hslot with hslot
      injection hslot with hy _
      subst hy
      rw [h2] at hst
      injection hst with hst
      subst hst
      rw [hdone] at hnd
      exact Bool.noConfusion hnd
    · rw [h1] at hslot
      exact Option.noConfusion hslot
    · rcases hforms with hnone | ⟨y, tz, s', hslot, hst, hdone⟩
      · rw [h1] at hnone
        exact Option.noConfusion hnone
      · rw [h1] at hslot
        injection hslot with hslot
        injection hslot with hy _
        subst hy
        rw [h2] at hst
        injection hst with hst
        subst hst
        rw [hdone] at hnd
        exact Bool.noConfusion hnd

/-- C1 witness: on `envRun` (running `Executing` action `1`, template
`10`) a pick of template `99` only cancels action `1`; on `envDone`
(terminal action `1`) a pick of template `99` despawns `1` and
instantiates the new action in the same tick, and the instantiation is
detected by the allocator having moved. -/
theorem C1_cancel_before_replace_witness :
    (thinker_system (some { id := 99 }) envRun
      = some (envRun.setState 1 .Cancelled))
    ∧ ((.Success = (.Success : RActionState) ∨ .Success = (.Failure : RActionState))
      ∧ (((envDone.despawn 1).spawnAction).2.setSlot
          (some (2, { id := 99 }))).states 1 = none)
    ∧ envRun.nextEntity = envRun.nextEntity := by
  refine ⟨?_, ?_, ?_⟩
  · exact C1_cancel_before_replace.1 envRun 1 { id := 10 } { id := 99 }
      rfl rfl rfl rfl
  · exact C1_cancel_before_replace.2.1 envDone 1 { id := 10 } { id := 99 }
      .Success _ rfl rfl (by decide) rfl (by decide)
  · exact C1_cancel_before_replace.2.2 envRun 1 { id := 10 } .Executing
      none envRun rfl rfl rfl rfl

lemma setQueue_states (env : ThinkerEnv) (q : List ActionInner) :
    (env.setQueue q).states = env.states := rfl

lemma setQueue_nextEntity (env : ThinkerEnv) (q : List ActionInner) :
    (env.setQueue q).nextEntity = env.nextEntity := rfl

lemma cancel_if_executing_done {c : ActionState} (h : c.is_done = true) :
    c.cancel_if_executing = c := by
  cases c <;> simp_all [ActionState.is_done, ActionState.cancel_if_executing]

lemma joinLoop_get_done :
    ∀ (cs : List ActionState) (i : Nat) (fidx : Option Nat) (j : Nat)
      (c : ActionState), cs.get? j = some c → c.is_done = true →
      (joinLoop i fidx cs).1.get? j = some c := by
  intro cs
  induction cs with
  | nil => intro i fidx j c hc _; simp at hc
  | cons c0 rest ih =>
    intro i fidx j c hc hdone
    cases j with
    | zero =>
      rw [List.get?_cons_zero] at hc
      injection hc with hc
      subst hc
      cases c0 <;> simp_all [joinLoop, ActionState.is_done]
    | succ j =>
      rw [List.get?_cons_succ] at hc
      cases c0 <;> simp only [joinLoop, List.get?_cons_succ] <;>
        exact ih _ _ j c hc hdone

lemma raceLoop_get_done :
    ∀ (cs : List ActionState) (i : Nat) (sidx : Option Nat) (j : Nat)
      (c : ActionState), cs.get? j = some c → c.is_done = true →
      (raceLoop i sidx cs).1.get? j = some c := by
  intro cs
  induction cs with
  | nil => intro i sidx j c hc _; simp at hc
  | cons c0 rest ih =>
    intro i sidx j c hc hdone
    cases j with
    | zero =>
      rw [List.get?_cons_zero] at hc
      injection hc with hc
      subst hc
      cases c0 <;> simp_all [raceLoop, ActionState.is_done]
    | succ j =>
      rw [List.get?_cons_succ] at hc
      cases c0 <;> simp only [raceLoop, List.get?_cons_succ] <;>
        exact ih _ _ j c hc hdone

lemma cancelBefore_get_done :
    ∀ (n : Nat) (cs : List ActionState) (j : Nat) (c : ActionState),
      cs.get? j = some c → c.is_done = true →
      (cancelBefore n cs).get? j = some c := by
  intro n
  induction n with
  | zero => intro cs j c hc _; rw [cancelBefore]; exact hc
  | succ n ih =>
    intro cs j c hc hdone
    cases cs with
    | nil => simp at hc
    | cons c0 rest =>
      cases j with
      | zero =>
        rw [List.get?_cons_zero] at hc
        injection hc with hc
        subst hc
        rw [cancelBefore]
        rw [List.get?_cons_zero, cancel_if_executing_done hdone]
      | succ j =>
        rw [List.get?_cons_succ] at hc
        rw [cancelBefore]
        rw [List.get?_cons_succ]
        exact ih rest j c hc hdone

lemma exec_join_get_done (s : ActionState) (cs : List ActionState) (i : Nat)
    (c : ActionState) (hc : cs.get? i = some c) (hdone : c.is_done = true) :
    (exec_join s cs).2.get? i = some c := by
  have hmap : (cs.map
      (fun c => if c = ActionState.Executing then ActionState.Cancelled
        else c)).get? i = some c := by
    rw [List.get?_map, hc]
    have hne : c ≠ ActionState.Executing := by
      intro hce; rw [hce] at hdone; exact Bool.noConfusion hdone
    simp [hne]
  cases s
  case Success => exact hc
  case Failure => exact hc
  case Executing =>
    rw [exec_join]
    split
    · exact joinLoop_get_done cs 0 none i c hc hdone
    · split
      · exact cancelBefore_get_done _ _ i c
          (joinLoop_get_done cs 0 none i c hc hdone) hdone
      · exact joinLoop_get_done cs 0 none i c hc hdone
  case Cancelled =>
    rw [exec_join]
    split
    · exact hmap
    · split
      · exact hmap
      · exact hmap

lemma exec_race_get_done (s : ActionState) (cs : List ActionState) (i : Nat)
    (c : ActionState) (hc : cs.get? i = some c) (hdone : c.is_done = true) :
    (exec_race s cs).2.get? i = some c := by
  have hmap : (cs.map
      (fun c => if c = ActionState.Executing then ActionState.Cancelled
        else c)).get? i = some c := by
    rw [List.get?_map, hc]
    have hne : c ≠ ActionState.Executing := by
      intro hce; rw [hce] at hdone; exact Bool.noConfusion hdone
    simp [hne]
  cases s
  case Success => exact hc
  case Failure => exact hc
  case Executing =>
    rw [exec_race]
    split
    · exact raceLoop_get_done cs 0 none i c hc hdone
    · split
      · exact cancelBefore_get_done _ _ i c
          (raceLoop_get_done cs 0 none i c hc hdone) hdone
      · exact raceLoop_get_done cs 0 none i c hc hdone
  case Cancelled =>
    rw [exec_race]
    split
    · exact hmap
    · split
      · exact hmap
      · exact hmap

/-- C9: terminal states are absorbing.  In the thinker tick, an allocated
entity that is `Success` or `Failure` before the tick is afterwards either
despawned or still carries the same state; `exec_join` and `exec_race`
leave a terminal parent (with its children) untouched and never change a
terminal child; `exec_step` leaves a terminal parent untouched (or panics
on a missing child state) and never changes a terminal child; and
`ActionState::cancel_if_executing` changes exactly the `Executing`
state. -/
theorem C9_terminal_absorbing :
    (∀ (env : ThinkerEnv) (pick : Option ActionInner) (env' : ThinkerEnv)
        (e : Nat) (s : RActionState),
      env.states e = some s → s.is_done = true → e < env.nextEntity →
      thinker_system pick env = some env' →
      env'.states e = none ∨ env'.states e = some s)
    ∧ (∀ (s : ActionState) (cs : List ActionState),
      s.is_done = true → exec_join s cs = (s, cs))
    ∧ (∀ (s : ActionState) (cs : List ActionState) (i : Nat)
        (c : ActionState),
      cs.get? i = some c → c.is_done = true →
      (exec_join s cs).2.get? i = some c)
    ∧ (∀ (s : ActionState) (cs : List ActionState),
      s.is_done = true → exec_race s cs = (s, cs))
    ∧ (∀ (s : ActionState) (cs : List ActionState) (i : Nat)
        (c : ActionState),
      cs.get? i = some c → c.is_done = true →
      (exec_race s cs).2.get? i = some c)
    ∧ (∀ env : StepEnv, env.this_state.is_done = true →
      exec_step env = some env ∨ exec_step env = none)
    ∧ (∀ (env env' : StepEnv) (e : Nat) (s : ActionState),
      env.states e = some s → s.is_done = true → e < env.nextEntity →
      exec_step env = some env' →
      env'.states e = none ∨ env'.states e = some s)
    ∧ ActionState.cancel_if_executing .Executing = .Cancelled
    ∧ (∀ s : ActionState, s ≠ .Executing → s.cancel_if_executing = s) := by
  refine ⟨?_, ?_, exec_join_get_done, ?_, exec_race_get_done, ?_, ?_, rfl, ?_⟩
  · intro env pick env' e s h2 hdone he h
    have hene : e ≠ env.nextEntity := Nat.ne_of_lt he
    rcases thinker_system_cases pick env env' h with
      hA | ⟨hreq, hB⟩ | ⟨hcan, _, hC⟩ | ⟨x, tx, hslot, hxs, hD⟩ |
        ⟨x, tx, s', hslot, hst, hsd, hE⟩ | ⟨x, tx, s', t, hslot, hst, hsd, hF⟩ |
        ⟨t, hslot, hG⟩ | ⟨a, rest, hp, hq, hforms, hH⟩
    · rw [hA]; exact Or.inr h2
    · by_cases hee : e = env.thinkerEntity
      · rw [← hee] at hreq
        rw [h2] at hreq
        injection hreq with hreq
        subst hreq
        exact Bool.noConfusion hdone
      · right
        rw [hB]
        simp only [ThinkerEnv.setState, if_neg hee]
        exact h2
    · by_cases hee : e = env.thinkerEntity
      · rw [← hee] at hcan
        rw [h2] at hcan
        injection hcan with hcan
        subst hcan
        exact Bool.noConfusion hdone
      · right
        rw [hC]
        simp only [ThinkerEnv.setState, if_neg hee]
        exact h2
    · by_cases hee : e = x
      · subst hee
        rcases hxs with hxs | hxs
        · rw [h2] at hxs
          injection hxs with hxs
          subst hxs
          exact Bool.noConfusion hdone
        · rw [h2] at hxs
          injection hxs with hxs
          subst hxs
          exact Bool.noConfusion hdone
      · right
        rw [hD]
        simp only [ThinkerEnv.setState, if_neg hee]
        exact h2
    · rw [hE, setSlot_states]
      by_cases hee : e = x
      · subst hee
        exact Or.inl (despawn_states_self env e)
      · right
        simp only [ThinkerEnv.despawn, if_neg hee]
        exact h2
    · rw [hF, setSlot_states,
        spawnAction_states_ne _ _ (by rw [despawn_nextEntity]; exact hene)]
      by_cases hee : e = x
      · subst hee
        exact Or.inl (despawn_states_self env e)
      · right
        simp only [ThinkerEnv.despawn, if_neg hee]
        exact h2
    · rw [hG, setSlot_states, spawnAction_states_ne _ _ hene]
      exact Or.inr h2
    · rw [hH, setSlot_states,
        spawnAction_states_ne _ _ (by rw [setQueue_nextEntity]; exact hene),
        setQueue_states]
      exact Or.inr h2
  · intro s cs h
    cases s with
    | Success => rfl
    | Failure => rfl
    | Executing => exact Bool.noConfusion h
    | Cancelled => exact Bool.noConfusion h
  · intro s cs h
    cases s with
    | Success => rfl
    | Failure => rfl
    | Executing => exact Bool.noConfusion h
    | Cancelled => exact Bool.noConfusion h
  · intro env hdone
    rcases hh : env.children.head? with _ | a
    · left
      rw [exec_step, hh]
    · rcases hs : env.states a with _ | st
      · right
        simp [exec_step, hh, hs]
      · rcases hts : env.this_state with _ | _ | _ | _ <;>
          rw [hts] at hdone
        · exact Bool.noConfusion hdone
        · exact Bool.noConfusion hdone
        · left
          cases st <;> simp [exec_step, hh, hs, hts]
        · left
          cases st <;> simp [exec_step, hh, hs, hts]
  · intro env env' e s hse hdone he h
    have hene : e ≠ env.nextEntity := Nat.ne_of_lt he
    rw [exec_step] at h
    rcases hh : env.children.head? with _ | a <;> rw [hh] at h <;>
      simp only [] at h
    · injection h with h
      rw [← h]
      exact Or.inr hse
    · rcases hs : env.states a with _ | st <;> rw [hs] at h <;>
        simp only [] at h
      · exact Option.noConfusion h
      · rcases hts : env.this_state with _ | _ | _ | _ <;> rw [hts] at h
        · cases st <;> simp only [] at h
          case Executing =>
            injection h with h
            rw [← h]
            exact Or.inr hse
          case Cancelled =>
            injection h with h
            rw [← h]
            exact Or.inr hse
          case Success =>
            split at h <;> injection h with h <;> rw [← h]
            · by_cases hee : e = a
              · subst hee
                exact Or.inl (by simp [StepEnv.despawn])
              · right
                simp only [StepEnv.despawn, if_neg hee]
                exact hse
            · by_cases hee : e = a
              · subst hee
                left
                simp [StepEnv.spawnChild, StepEnv.despawn, hene]
              · right
                simp only [StepEnv.spawnChild, StepEnv.despawn,
                  if_neg hee, if_neg hene]
                exact hse
          case Failure =>
            injection h with h
            rw [← h]
            by_cases hee : e = a
            · subst hee
              exact Or.inl (by simp [StepEnv.despawn])
            · right
              simp only [StepEnv.despawn, if_neg hee]
              exact hse
        · cases st <;> simp only [] at h
          case Executing =>
            injection h with h
            rw [← h]
            by_cases hee : e = a
            · subst hee
              rw [hse] at hs
              injection hs with hs
              rw [hs] at hdone
              exact Bool.noConfusion hdone
            · right
              simp only [StepEnv.setState, if_neg hee]
              exact hse
          case Cancelled =>
            injection h with h
            rw [← h]
            exact Or.inr hse
          case Success =>
            injection h with h
            rw [← h]
            exact Or.inr hse
          case Failure =>
            injection h with h
            rw [← h]
            exact Or.inr hse
        · cases st <;> simp only [] at h <;> injection h with h <;> rw [← h] <;>
            exact Or.inr hse
        · cases st <;> simp only [] at h <;> injection h with h <;> rw [← h] <;>
            exact Or.inr hse
  · intro s hs
    cases s with
    | Executing => exact absurd rfl hs
    | Cancelled => rfl
    | Success => rfl
    | Failure => rfl

/-- C9 witness: the absorbing properties instantiated on concrete inputs —
the thinker tick over `envDone` (terminal action `1` is despawned, not
rewritten), terminal Join/Race parents and children, a terminal Step
parent, a failed Step child, and `cancel_if_executing` on `Success`. -/
theorem C9_terminal_absorbing_witness :
    (((envDone.despawn 1).setSlot none).states 1 = none
      ∨ ((envDone.despawn 1).setSlot none).states 1 = some .Success)
    ∧ exec_join .Success [.Executing] = (.Success, [.Executing])
    ∧ (exec_join .Executing [.Success]).2.get? 0 = some .Success
    ∧ exec_race .Failure [.Executing] = (.Failure, [.Executing])
    ∧ (exec_race .Executing [.Failure]).2.get? 0 = some .Failure
    ∧ (exec_step stepDone = some stepDone ∨ exec_step stepDone = none)
    ∧ (({ stepFailing.despawn 1 with this_state := .Failure } : StepEnv).states 1
        = none
      ∨ ({ stepFailing.despawn 1 with this_state := .Failure } : StepEnv).states 1
        = some .Failure)
    ∧ (ActionState.Success.cancel_if_executing = .Success) := by
  refine ⟨?_, ?_, ?_, ?_, ?_, ?_, ?_, ?_⟩
  · exact C9_terminal_absorbing.1 envDone none ((envDone.despawn 1).setSlot none)
      1 .Success rfl rfl (by decide) rfl
  · exact C9_terminal_absorbing.2.1 .Success [.Executing] rfl
  · exact C9_terminal_absorbing.2.2.1 .Executing [.Success] 0 .Success rfl rfl
  · exact C9_terminal_absorbing.2.2.2.1 .Failure [.Executing] rfl
  · exact C9_terminal_absorbing.2.2.2.2.1 .Executing [.Failure] 0 .Failure
      rfl rfl
  · exact C9_terminal_absorbing.2.2.2.2.2.1 stepDone rfl
  · exact C9_terminal_absorbing.2.2.2.2.2.2.1 stepFailing
      { stepFailing.despawn 1 with this_state := .Failure } 1 .Failure
      rfl rfl (by decide) rfl
  · exact C9_terminal_absorbing.2.2.2.2.2.2.2.2 .Success (by decide)
